import Mathlib

/-!
Shallow embedding of the LiquidJava VS Code extension client
(`src/client/src/extension.ts`) and proofs about its lifecycle,
teardown and diagnostics-routing behaviour.

The module-level mutable variables of `extension.ts`
(`serverProcess`, `client`, `socket`, `errorDiagnostic`, the status bar)
are modelled as one explicit state record `ExtState`; every observable
side effect (log lines, status-bar updates, user-visible messages,
webview messages, teardown actions, port reservation, process spawn,
socket connection) is recorded in an event trace carried by the state.

`stopExtension` is an `async` function whose body suspends at
`await client?.stop()` (line 305) and `await killProcess(serverProcess)`
(line 322).  It is embedded twice, from the same source lines:
once as a run-to-completion function `stopExtension`, and once as a
three-segment coroutine (`taskStep`) cut exactly at those two `await`
points, so that the interleaving of several in-flight invocations on
the single-threaded event loop can be examined.  The two embeddings are
proved to agree on a solo run (`stopExtension_eq_soloRun`).
-/

namespace LiquidJava

/-- Diagnostic severities, mirroring `vscode.DiagnosticSeverity`. -/
inductive DiagnosticSeverity where
  | error
  | warning
  | information
  | hint
deriving DecidableEq, Repr

/-- A source range, mirroring `vscode.Range` (start/end line and character). -/
structure SrcRange where
  startLine : Nat
  startChar : Nat
  endLine : Nat
  endChar : Nat
deriving DecidableEq, Repr

/-- A diagnostic as consumed by `handleDiagnostics`: the fields of
`vscode.Diagnostic` that the code reads (`message`, `range`, `severity`,
`source`) plus the LiquidJava payload `data.errorKind` read through the
`LJDiagnostic` cast (`types.ts`).  `source` is optional in vscode, hence
`Option String`. -/
structure LJDiagnostic where
  message : String
  range : SrcRange
  severity : DiagnosticSeverity
  source : Option String
  errorKind : String
deriving DecidableEq, Repr

/-- Modelled from the spec: `EXAMPLE_EXPECTED` is a fixed constant defined in
`constants.ts`, which is not under `src/`; only its fixedness matters here,
its concrete content is opaque. -/
def EXAMPLE_EXPECTED : String := "example-expected"

/-- Modelled from the spec: `EXAMPLE_DERIVATION_NODE` is a fixed constant from
`constants.ts` (not under `src/`); content opaque. -/
def EXAMPLE_DERIVATION_NODE : String := "example-derivation-node"

/-- Modelled from the spec: `EXAMPLE_TRANSLATION_TABLE` is a fixed constant
from `constants.ts` (not under `src/`); content opaque. -/
def EXAMPLE_TRANSLATION_TABLE : String := "example-translation-table"

/-- The `RefinementError` record built in `handleDiagnostics`
(extension.ts lines 339-349). -/
structure RefinementError where
  message : String
  range : SrcRange
  severity : DiagnosticSeverity
  file : String
  kind : String
  expected : String
  found : String
  translationTable : String
deriving DecidableEq, Repr

/-- The four status-bar states accepted by `updateStatusBar`
(extension.ts line 179). -/
inductive StatusBarState where
  | loading
  | stopped
  | passed
  | failed
deriving DecidableEq, Repr

/-- One observable side effect of the extension code.  Log lines carry their
origin (client vs server logger), user messages their kind
(`showWarningMessage` vs `showErrorMessage`); `webviewMsg e` is the
`{type: "refinement-error", error: e}` message posted to the webview,
`none` standing for the explicit `error: null` clear value. -/
inductive Event where
  | logClientInfo (msg : String)
  | logClientError (msg : String)
  | logServerInfo (msg : String)
  | logServerError (msg : String)
  | statusUpdate (st : StatusBarState)
  | userWarning (msg : String)
  | userError (msg : String)
  | webviewMsg (err : Option RefinementError)
  | clientStopCall
  | socketDestroyCall
  | processKillCall
  | portReserve (port : Nat)
  | spawnProcess (port : Nat)
  | connectCall (port : Nat)
deriving DecidableEq, Repr

/-- The module-level mutable state of `extension.ts` (lines 13-20), plus the
event trace.  Process, client and socket handles are opaque, modelled as
`Option Nat` (`none` = `undefined`). -/
structure ExtState where
  client : Option Nat
  socket : Option Nat
  serverProcess : Option Nat
  errorDiagnostic : Option RefinementError
  statusBar : StatusBarState
  events : List Event
deriving DecidableEq, Repr

/-- Append one observable event to the trace. -/
def addEvent (s : ExtState) (e : Event) : ExtState :=
  { s with events := s.events ++ [e] }

/-- Source `logger.client.info(msg)`. -/
def logClientInfo (s : ExtState) (msg : String) : ExtState :=
  addEvent s (.logClientInfo msg)

/-- Source `logger.client.error(msg)`. -/
def logClientError (s : ExtState) (msg : String) : ExtState :=
  addEvent s (.logClientError msg)

/-- Source `logger.server.info(msg)`. -/
def logServerInfo (s : ExtState) (msg : String) : ExtState :=
  addEvent s (.logServerInfo msg)

/-- Source `logger.server.error(msg)`. -/
def logServerError (s : ExtState) (msg : String) : ExtState :=
  addEvent s (.logServerError msg)

/-- Source `updateStatusBar(state)` (extension.ts lines 179-189): records the update
and changes the rendered state. -/
def updateStatusBar (s : ExtState) (st : StatusBarState) : ExtState :=
  { addEvent s (.statusUpdate st) with statusBar := st }

/-- The predicate of the `find` on extension.ts line 332:
`d.severity === DiagnosticSeverity.Error && d.source === "liquidjava"`. -/
def isLJError (d : LJDiagnostic) : Bool :=
  d.severity == DiagnosticSeverity.error && d.source == some "liquidjava"

/-- The `RefinementError` literal of extension.ts lines 339-349: `message`,
`range`, `severity`, `kind` come from the diagnostic, `file` from the
document uri (`uri.fsPath`), and `expected`, `found`, `translationTable`
are the hardcoded example constants. -/
def mkRefinementError (uriFsPath : String) (d : LJDiagnostic) : RefinementError :=
  { message := d.message
    range := d.range
    severity := d.severity
    file := uriFsPath
    kind := d.errorKind
    expected := EXAMPLE_EXPECTED
    found := EXAMPLE_DERIVATION_NODE
    translationTable := EXAMPLE_TRANSLATION_TABLE }

/-- Source `handleDiagnostics(uri, diagnostics)` (extension.ts lines 331-353):
find the first LiquidJava error diagnostic; if none, post a clear message
to the webview, set status `passed` and null the active diagnostic;
otherwise build the `RefinementError`, post it, set status `failed` and
store it. -/
def handleDiagnostics (uriFsPath : String) (diagnostics : List LJDiagnostic)
    (s : ExtState) : ExtState :=
  match diagnostics.find? isLJError with
  | none =>
      let s := addEvent s (.webviewMsg none)
      let s := updateStatusBar s .passed
      { s with errorDiagnostic := none }
  | some d =>
      let e := mkRefinementError uriFsPath d
      let s := addEvent s (.webviewMsg (some e))
      let s := updateStatusBar s .failed
      { s with errorDiagnostic := some e }

/-- Which teardown steps fail when attempted: `client.stop()` rejecting,
`socket.destroy()` throwing, the kill inside `killProcess` failing.
These model the behaviour of the external resources. -/
structure Flags where
  clientStopFails : Bool
  socketDestroyFails : Bool
  killFails : Bool
deriving DecidableEq, Repr

/-- All teardown steps succeed. -/
def allOk : Flags := ⟨false, false, false⟩

/-- Modelled from the spec: `killProcess` lives in `utils.ts`, which is not
under `src/`.  Per spec 4.2 and 7, `terminate` sends a termination signal,
is a no-op when the process handle is already null, and a teardown-step
failure is logged only, never thrown.  Returns the events it emits. -/
def killProcess (proc : Option Nat) (fails : Bool) : List Event :=
  match proc with
  | none => []
  | some _ =>
      Event.processKillCall ::
        (if fails then [Event.logClientError "Error killing process: error"] else [])

/-- Source `stopExtension(reason)` (extension.ts lines 295-324), run to completion
with no interleaving.  Line by line: the entry guard (296-299) returns early
with only an info log when no resource reference is set; otherwise the stop
is logged (300), the status set to `stopped` (301), `client?.stop()` awaited
under try/catch/finally clearing `client` (304-310), `socket?.destroy()`
run under try/catch/finally clearing `socket` (313-319), and
`killProcess(serverProcess)` awaited before clearing `serverProcess`
(322-323). -/
def stopExtension (fl : Flags) (reason : String) (s : ExtState) : ExtState :=
  if s.client = none ∧ s.serverProcess = none ∧ s.socket = none then
    logClientInfo s "Extension already stopped"
  else
    let s0 := logClientInfo s ("Stopping LiquidJava extension: " ++ reason)
    let s1 := updateStatusBar s0 .stopped
    let invoked := s1.client.isSome
    let s2 := if invoked then addEvent s1 .clientStopCall else s1
    let s3 := if invoked && fl.clientStopFails then
        logClientError s2 "Error stopping client: error" else s2
    let s4 := { s3 with client := none }
    let hasSock := s4.socket.isSome
    let s5 := if hasSock then addEvent s4 .socketDestroyCall else s4
    let s6 := if hasSock && fl.socketDestroyFails then
        logClientError s5 "Error closing socket: error" else s5
    let s7 := { s6 with socket := none }
    let s8 := { s7 with events := s7.events ++ killProcess s7.serverProcess fl.killFails }
    { s8 with serverProcess := none }

/-- Program counter of one in-flight `stopExtension` invocation: before the
entry guard, resumed from `await client?.stop()` (line 305), resumed from
`await killProcess(serverProcess)` (line 322), or returned. -/
inductive StopPC where
  | entry
  | awaitClient
  | awaitKill
  | finished
deriving DecidableEq, Repr

/-- One in-flight `stopExtension` invocation: its `reason` argument, its
program counter, and whether its first segment actually invoked
`client.stop()` (which determines whether its `catch` can observe a
rejection on resume). -/
structure StopTask where
  reason : String
  pc : StopPC
  invokedClientStop : Bool
deriving DecidableEq, Repr

/-- A fresh `stopExtension(reason)` invocation. -/
def initTask (reason : String) : StopTask :=
  { reason := reason, pc := .entry, invokedClientStop := false }

/-- Run one atomic segment of a `stopExtension` invocation: the same source
lines as `stopExtension`, cut at its two `await` points.  Segment `entry` is
lines 296-305 up to issuing `client?.stop()`; segment `awaitClient` is the
catch/finally of 306-310 plus the synchronous lines 313-319 and the issue of
`killProcess(serverProcess)` on 322; segment `awaitKill` is line 323. -/
def taskStep (fl : Flags) (s : ExtState) (t : StopTask) : ExtState × StopTask :=
  match t.pc with
  | .entry =>
      if s.client = none ∧ s.serverProcess = none ∧ s.socket = none then
        (logClientInfo s "Extension already stopped", { t with pc := .finished })
      else
        let s0 := logClientInfo s ("Stopping LiquidJava extension: " ++ t.reason)
        let s1 := updateStatusBar s0 .stopped
        let invoked := s1.client.isSome
        let s2 := if invoked then addEvent s1 .clientStopCall else s1
        (s2, { t with pc := .awaitClient, invokedClientStop := invoked })
  | .awaitClient =>
      let s3 := if t.invokedClientStop && fl.clientStopFails then
          logClientError s "Error stopping client: error" else s
      let s4 := { s3 with client := none }
      let hasSock := s4.socket.isSome
      let s5 := if hasSock then addEvent s4 .socketDestroyCall else s4
      let s6 := if hasSock && fl.socketDestroyFails then
          logClientError s5 "Error closing socket: error" else s5
      let s7 := { s6 with socket := none }
      let s8 := { s7 with events := s7.events ++ killProcess s7.serverProcess fl.killFails }
      (s8, { t with pc := .awaitKill })
  | .awaitKill =>
      ({ s with serverProcess := none }, { t with pc := .finished })
  | .finished => (s, t)

/-- A set of in-flight `stopExtension` invocations over the shared module
state, interleaving on the single-threaded event loop. -/
structure StopSys where
  st : ExtState
  tasks : List StopTask
deriving DecidableEq, Repr

/-- Run one atomic segment of task `i` (out-of-range indices are no-ops). -/
def sysStep (fl : Flags) (sys : StopSys) (i : Nat) : StopSys :=
  match sys.tasks.get? i with
  | none => sys
  | some t =>
      let r := taskStep fl sys.st t
      { st := r.1, tasks := sys.tasks.set i r.2 }

/-- Run a schedule: a list of task indices, each picking which in-flight
invocation executes its next atomic segment. -/
def runSched (fl : Flags) (sched : List Nat) (sys : StopSys) : StopSys :=
  sched.foldl (sysStep fl) sys

/-- Run a single `stopExtension` invocation to completion through the
segment machine (three segments suffice: entry, awaitClient, awaitKill). -/
def soloRun (fl : Flags) (reason : String) (s : ExtState) : ExtState :=
  (runSched fl [0, 0, 0] { st := s, tasks := [initTask reason] }).st

/-- The `serverProcess.on("close", ...)` handler (extension.ts lines
224-227): log the exit code via the server logger, then `client?.stop()`
(which neither clears `client` nor awaits). -/
def onProcessClose (code : Int) (s : ExtState) : ExtState :=
  let s := logServerInfo s ("Process exited with code " ++ toString code)
  if s.client.isSome then addEvent s .clientStopCall else s

/-- The `serverProcess.on("error", ...)` handler (extension.ts lines
221-223): the spawn failure is only logged via the server logger. -/
def onSpawnError (err : String) (s : ExtState) : ExtState :=
  logServerError s ("Failed to start: " ++ err)

/-- Modelled from the spec: `DEBUG_PORT` is the fixed, pre-agreed debug port
defined in `constants.ts`, which is not under `src/`; its concrete value is
irrelevant, only its fixedness. -/
def DEBUG_PORT : Nat := 8080

/-- Source `runLanguageServer` (extension.ts lines 197-229).  `debugMode` is the
`DEBUG_MODE` constant from `constants.ts` and `availPort` the value the
external `getAvailablePort()` allocator would return; the ternary on line
198 evaluates `getAvailablePort()` (event `portReserve`) only when
`DEBUG_MODE` is false, and the debug branch (199-202) returns the fixed
port before any spawn.  Otherwise the server process is spawned with the
port (event `spawnProcess`) and the handle stored. -/
def runLanguageServer (debugMode : Bool) (availPort : Nat) (s : ExtState) :
    ExtState × Nat :=
  if debugMode then
    let port := DEBUG_PORT
    (logClientInfo s ("DEBUG MODE: Using fixed port " ++ toString port), port)
  else
    let port := availPort
    let s := addEvent s (.portReserve availPort)
    let s := logClientInfo s ("Running language server on port " ++ toString port)
    let s := logClientInfo s "Creating language server process..."
    let s := addEvent s (.spawnProcess port)
    ({ s with serverProcess := some 1 }, port)

/-- Source `runClient` (extension.ts lines 236-289).  The `LanguageClient` is
created, then `client.start()` runs the lazy `serverOptions`, which calls
`connectToPort(port)` (event `connectCall`; `connectToPort` lives in
`utils.ts`, its success is the parameter `connectOk`).  On success the
socket is stored and readiness logged; on failure the `serverOptions`
catch runs `stopExtension("Failed to connect to server")` and the rejected
`client.start()` is caught on lines 275-279 (user-visible error message,
log, `stopExtension("Failed to initialize")`). -/
def runClient (connectOk : Bool) (port : Nat) (s : ExtState) : ExtState :=
  let s := { s with client := some 1 }
  let s := addEvent s (.connectCall port)
  if connectOk then
    let s := { s with socket := some 1 }
    logClientInfo s "Extension is ready"
  else
    let s := stopExtension allOk "Failed to connect to server" s
    let s := addEvent s (.userError "LiquidJava failed to initialize: error")
    let s := logClientError s "Failed to initialize: error"
    stopExtension allOk "Failed to initialize" s

/-- Source `activate` (extension.ts lines 26-63).  `jarPresent` and `javaPath` are
the results of the external prerequisite checkers `isJarPresent()` and
`findJavaExecutable("java")` (`utils.ts`).  `initStatusBar` (line 93) sets
the status bar to `loading`; a missing jar shows a warning message once and
stops (lines 38-43), a missing Java runtime shows an error message once and
stops (lines 48-53); otherwise the server is started and the client run. -/
def activate (jarPresent : Bool) (javaPath : Option String) (debugMode : Bool)
    (availPort : Nat) (connectOk : Bool) (s : ExtState) : ExtState :=
  let s := updateStatusBar s .loading
  let s := logClientInfo s "Activating LiquidJava extension..."
  if jarPresent = false then
    let s := addEvent s (.userWarning "LiquidJava API Jar Not Found in Workspace")
    let s := logClientError s "LiquidJava API jar not found in workspace - Not activating extension"
    updateStatusBar s .stopped
  else
    let s := logClientInfo s "Found LiquidJava API in the workspace - Loading extension..."
    match javaPath with
    | none =>
        let s := addEvent s (.userError "LiquidJava - Java Runtime Not Found in JAVA_HOME or PATH")
        let s := logClientError s "Java Runtime not found in JAVA_HOME or PATH - Not activating extension"
        updateStatusBar s .stopped
    | some jp =>
        let s := logClientInfo s ("Using Java at: " ++ jp)
        let s := logClientInfo s "Starting LiquidJava language server..."
        let r := runLanguageServer debugMode availPort s
        let s := logClientInfo r.1 "Starting LiquidJava client..."
        runClient connectOk r.2 s

/-- The state before `activate` runs: no resource references, empty trace. -/
def initState : ExtState :=
  { client := none
    socket := none
    serverProcess := none
    errorDiagnostic := none
    statusBar := .loading
    events := [] }

/-- A reachable Running state: a successful activation followed by an empty
first diagnostics round (status `passed`, all three resources live, no
active diagnostic). -/
def reachedRunning : ExtState :=
  handleDiagnostics "/A.java" []
    (activate true (some "/usr/bin/java") false 5555 true initState)

/-- Event classifier: a `client.stop()` teardown call. -/
def isClientStopCall : Event → Bool
  | .clientStopCall => true
  | _ => false

/-- Event classifier: a `socket.destroy()` teardown call. -/
def isSocketDestroyCall : Event → Bool
  | .socketDestroyCall => true
  | _ => false

/-- Event classifier: a kill signal sent to the server process. -/
def isProcessKillCall : Event → Bool
  | .processKillCall => true
  | _ => false

/-- Event classifier: a status-bar update to `stopped`. -/
def isStatusStopped : Event → Bool
  | .statusUpdate .stopped => true
  | _ => false

/-- Event classifier: a user-visible warning message (`showWarningMessage`). -/
def isUserWarning : Event → Bool
  | .userWarning _ => true
  | _ => false

/-- Event classifier: a user-visible error message (`showErrorMessage`). -/
def isUserError : Event → Bool
  | .userError _ => true
  | _ => false

/-- Event classifier: any user-visible message, warning or error. -/
def isUserMessage : Event → Bool
  | .userWarning _ => true
  | .userError _ => true
  | _ => false

/-- Event classifier: an ephemeral-port reservation (`getAvailablePort`). -/
def isPortReserve : Event → Bool
  | .portReserve _ => true
  | _ => false

/-- Event classifier: an engine-process spawn. -/
def isSpawnProcess : Event → Bool
  | .spawnProcess _ => true
  | _ => false

/-- A LiquidJava Error diagnostic (engine source tag, severity Error). -/
def ljErrDiag : LJDiagnostic :=
  { message := "refinement violated"
    range := ⟨3, 0, 3, 10⟩
    severity := .error
    source := some "liquidjava"
    errorKind := "refinement" }

/-- A second, distinct LiquidJava Error diagnostic. -/
def ljErrDiag2 : LJDiagnostic :=
  { message := "state violated"
    range := ⟨7, 2, 7, 9⟩
    severity := .error
    source := some "liquidjava"
    errorKind := "typestate" }

/-- An Error diagnostic from a different source tag. -/
def otherSrcError : LJDiagnostic :=
  { message := "cannot resolve symbol"
    range := ⟨1, 0, 1, 4⟩
    severity := .error
    source := some "java"
    errorKind := "other" }

/-- A LiquidJava diagnostic of non-Error severity. -/
def ljWarnDiag : LJDiagnostic :=
  { message := "minor issue"
    range := ⟨2, 0, 2, 3⟩
    severity := .warning
    source := some "liquidjava"
    errorKind := "minor" }

/-- Two explicit `stopExtension` invocations started on the Running state,
the second entering while the first is suspended at `await client?.stop()`:
schedule `[0, 1, 0, 0, 1, 1]` runs the entry segment of invocation 0, then
the entry segment of invocation 1, then lets both finish. -/
def overlappedStops : StopSys :=
  runSched allOk [0, 1, 0, 0, 1, 1]
    { st := reachedRunning, tasks := [initTask "first", initTask "second"] }

/-- The process-exit scenario with an overlapping second stop: the engine
process exits with code 1 on the Running state, the session-ended trigger
starts `stopExtension("Extension stopped")`, and a second explicit stop
enters while that one is suspended at `await client?.stop()`. -/
def exitOverlapSys : StopSys :=
  runSched allOk [0, 1, 0, 0, 1, 1]
    { st := onProcessClose 1 reachedRunning
      tasks := [initTask "Extension stopped", initTask "Extension was deactivated"] }

/-- A completed stop performed right after a diagnostics round that had
found a LiquidJava error on the Running state. -/
def stoppedWithDiag : ExtState :=
  stopExtension allOk "Extension was deactivated"
    (handleDiagnostics "/A.java" [ljErrDiag] reachedRunning)

/-- The state right after `runLanguageServer` spawned the engine process,
before the client exists: where the `error` handler of the spawned process
fires when the spawn fails. -/
def afterSpawnState : ExtState := (runLanguageServer false 5555 initState).1

/-- The spawn-failure handler applied to the post-spawn state. -/
def spawnErrState : ExtState :=
  onSpawnError "Error: spawn java ENOENT" afterSpawnState

/-- First-match characterization of `List.find?`: a found element satisfies
the predicate and everything before it in collection order refutes it. -/
theorem find?_eq_some_split {α : Type} (p : α → Bool) :
    ∀ (l : List α) (a : α), l.find? p = some a →
      p a = true ∧ ∃ l₁ l₂, l = l₁ ++ a :: l₂ ∧ ∀ x ∈ l₁, p x = false := by
  intro l
  induction l with
  | nil => intro a h; simp [List.find?] at h
  | cons x xs ih =>
      intro a h
      by_cases hx : p x = true
      · rw [List.find?_cons_of_pos _ hx] at h
        cases h
        exact ⟨hx, [], xs, rfl, by simp⟩
      · rw [List.find?_cons_of_neg _ (by simpa using hx)] at h
        obtain ⟨hp, l₁, l₂, hl, hall⟩ := ih a h
        refine ⟨hp, x :: l₁, l₂, by simp [hl], ?_⟩
        intro y hy
        rcases List.mem_cons.mp hy with rfl | hy
        · simpa using hx
        · exact hall y hy

/-- The active diagnostic after a diagnostics round is exactly the routed
first LiquidJava error, mapped through the `RefinementError` construction. -/
theorem handleDiagnostics_errorDiagnostic (u : String) (l : List LJDiagnostic)
    (s : ExtState) :
    (handleDiagnostics u l s).errorDiagnostic =
      (l.find? isLJError).map (mkRefinementError u) := by
  unfold handleDiagnostics
  cases h : l.find? isLJError <;> simp [h, updateStatusBar, addEvent]

/-- Teardown does not touch the active diagnostic: `stopExtension` has no
assignment to `errorDiagnostic` anywhere on its path. -/
theorem stopExtension_errorDiagnostic (fl : Flags) (r : String) (s : ExtState) :
    (stopExtension fl r s).errorDiagnostic = s.errorDiagnostic := by
  unfold stopExtension
  by_cases h : s.client = none ∧ s.serverProcess = none ∧ s.socket = none
  · rw [if_pos h]; rfl
  · rw [if_neg h]
    obtain ⟨c, sk, pr, ed, sb, ev⟩ := s
    cases c <;> cases sk <;> cases pr <;>
      cases fl.clientStopFails <;> cases fl.socketDestroyFails <;>
      simp [logClientInfo, logClientError, updateStatusBar, addEvent, killProcess]

/-- After any completed `stopExtension` run the three resource references
are cleared, whichever branch was taken. -/
theorem stopExtension_clears (fl : Flags) (r : String) (s : ExtState) :
    (stopExtension fl r s).client = none ∧ (stopExtension fl r s).socket = none ∧
      (stopExtension fl r s).serverProcess = none := by
  unfold stopExtension
  by_cases h : s.client = none ∧ s.serverProcess = none ∧ s.socket = none
  · rw [if_pos h]
    exact ⟨h.1, h.2.2, h.2.1⟩
  · rw [if_neg h]
    obtain ⟨c, sk, pr, ed, sb, ev⟩ := s
    cases c <;> cases sk <;> cases pr <;>
      cases fl.clientStopFails <;> cases fl.socketDestroyFails <;>
      simp [logClientInfo, logClientError, updateStatusBar, addEvent, killProcess]

/-- On a state with no live resource, `stopExtension` takes the entry guard
(line 296) and only logs that the extension is already stopped. -/
theorem stopExtension_noop (fl : Flags) (r : String) (s : ExtState)
    (h1 : s.client = none) (h2 : s.serverProcess = none) (h3 : s.socket = none) :
    stopExtension fl r s = logClientInfo s "Extension already stopped" := by
  unfold stopExtension
  rw [if_pos ⟨h1, h2, h3⟩]

/-- One completed `stopExtension` run emits exactly one teardown action per
resource that was live at entry, and none for the others. -/
theorem stopExtension_count_teardown (fl : Flags) (r : String) (s : ExtState) :
    (stopExtension fl r s).events.countP isClientStopCall =
        s.events.countP isClientStopCall + (if s.client.isSome then 1 else 0) ∧
    (stopExtension fl r s).events.countP isSocketDestroyCall =
        s.events.countP isSocketDestroyCall + (if s.socket.isSome then 1 else 0) ∧
    (stopExtension fl r s).events.countP isProcessKillCall =
        s.events.countP isProcessKillCall + (if s.serverProcess.isSome then 1 else 0) := by
  unfold stopExtension
  by_cases h : s.client = none ∧ s.serverProcess = none ∧ s.socket = none
  · rw [if_pos h]
    simp [h.1, h.2.1, h.2.2, logClientInfo, addEvent, List.countP_append,
      isClientStopCall, isSocketDestroyCall, isProcessKillCall]
  · rw [if_neg h]
    obtain ⟨c, sk, pr, ed, sb, ev⟩ := s
    cases c <;> cases sk <;> cases pr <;>
      cases fl.clientStopFails <;> cases fl.socketDestroyFails <;> cases fl.killFails <;>
      simp [logClientInfo, logClientError, updateStatusBar, addEvent, killProcess,
        List.countP_append, List.countP_cons, isClientStopCall, isSocketDestroyCall,
        isProcessKillCall]

/-- A `stopExtension` run that finds at least one live resource sets the
status bar to `stopped`. -/
theorem stopExtension_status (fl : Flags) (r : String) (s : ExtState)
    (h : ¬ (s.client = none ∧ s.serverProcess = none ∧ s.socket = none)) :
    (stopExtension fl r s).statusBar = .stopped := by
  unfold stopExtension
  rw [if_neg h]
  obtain ⟨c, sk, pr, ed, sb, ev⟩ := s
  cases c <;> cases sk <;> cases pr <;>
    cases fl.clientStopFails <;> cases fl.socketDestroyFails <;>
    simp [logClientInfo, logClientError, updateStatusBar, addEvent, killProcess]

/-- Events already in the trace survive a `stopExtension` run. -/
theorem stopExtension_events_mono (fl : Flags) (r : String) (s : ExtState)
    (e : Event) (he : e ∈ s.events) : e ∈ (stopExtension fl r s).events := by
  unfold stopExtension
  by_cases h : s.client = none ∧ s.serverProcess = none ∧ s.socket = none
  · rw [if_pos h]
    simp [logClientInfo, addEvent, List.mem_append]
    exact Or.inl he
  · rw [if_neg h]
    obtain ⟨c, sk, pr, ed, sb, ev⟩ := s
    have he' : e ∈ ev := he
    clear he h
    cases c <;> cases sk <;> cases pr <;>
      cases fl.clientStopFails <;> cases fl.socketDestroyFails <;> cases fl.killFails <;>
      simp [logClientInfo, logClientError, updateStatusBar, addEvent, killProcess,
        List.mem_append] <;> tauto

/-- The run-to-completion embedding of `stopExtension` agrees with running
its three-segment coroutine alone to completion: the segment machine is the
same code, merely cut at the two `await` points. -/
theorem stopExtension_eq_soloRun (fl : Flags) (r : String) (s : ExtState) :
    soloRun fl r s = stopExtension fl r s := by
  unfold soloRun runSched stopExtension
  by_cases h : s.client = none ∧ s.serverProcess = none ∧ s.socket = none
  · simp [sysStep, taskStep, initTask, h]
  · simp [sysStep, taskStep, initTask, h]

/-- The process-close handler logs the exit code through the server logger,
issues `client?.stop()` and touches no resource reference. -/
theorem onProcessClose_spec (c : Int) (s : ExtState) :
    (onProcessClose c s).client = s.client ∧
    (onProcessClose c s).socket = s.socket ∧
    (onProcessClose c s).serverProcess = s.serverProcess ∧
    Event.logServerInfo ("Process exited with code " ++ toString c) ∈
      (onProcessClose c s).events ∧
    (onProcessClose c s).events.countP isProcessKillCall =
      s.events.countP isProcessKillCall := by
  unfold onProcessClose
  obtain ⟨cl, sk, pr, ed, sb, ev⟩ := s
  cases cl <;>
    simp [logServerInfo, addEvent, List.countP_append, List.mem_append,
      isProcessKillCall]

/-- The `connectCall` issued by the lazy `serverOptions` targets exactly the
port passed to `runClient`, on both the success and the failure path. -/
theorem runClient_connect_mem (cOk : Bool) (port : Nat) (s : ExtState) :
    Event.connectCall port ∈ (runClient cOk port s).events := by
  unfold runClient
  cases cOk
  · apply stopExtension_events_mono
    simp only [logClientError, addEvent, List.mem_append]
    left; left
    apply stopExtension_events_mono
    simp [addEvent, List.mem_append]
  · simp [logClientInfo, addEvent, List.mem_append]

/-- Claim C1, counterexample: from the reachable Running state (all three
resources live), a second `stop` invocation that begins while the first is
suspended at `await client?.stop()` passes the entry guard (the references
are cleared only after the awaited steps resume), so the client teardown
action is issued twice and the `stopped` status event is emitted twice,
refuting "exactly one teardown side effect per owned resource" and "every
invocation after a stop has begun ... is a no-op that emits no duplicate
status or log events". -/
theorem stop_overlap_duplicates_teardown :
    reachedRunning.client.isSome = true ∧
    reachedRunning.socket.isSome = true ∧
    reachedRunning.serverProcess.isSome = true ∧
    overlappedStops.st.events.countP isClientStopCall = 2 ∧
    overlappedStops.st.events.countP isStatusStopped = 2 := by decide

/-- Claim C1 (amended): for sequential, run-to-completion invocations the
claim holds — one completed `stop` clears every resource reference, emits
exactly one teardown action per resource that was live (none for absent
ones), sets status `stopped` whenever there was anything to stop, and any
later invocation after completion is a no-op that emits only the
"already stopped" info log and no status or teardown event.  Only an
invocation overlapping an in-progress stop breaks the claim
(see the counterexample). -/
theorem stop_sequential_idempotent (fl : Flags) (r₁ r₂ : String) (s : ExtState) :
    (stopExtension fl r₁ s).client = none ∧
    (stopExtension fl r₁ s).socket = none ∧
    (stopExtension fl r₁ s).serverProcess = none ∧
    (stopExtension fl r₁ s).events.countP isClientStopCall =
        s.events.countP isClientStopCall + (if s.client.isSome then 1 else 0) ∧
    (stopExtension fl r₁ s).events.countP isSocketDestroyCall =
        s.events.countP isSocketDestroyCall + (if s.socket.isSome then 1 else 0) ∧
    (stopExtension fl r₁ s).events.countP isProcessKillCall =
        s.events.countP isProcessKillCall + (if s.serverProcess.isSome then 1 else 0) ∧
    (¬ (s.client = none ∧ s.serverProcess = none ∧ s.socket = none) →
        (stopExtension fl r₁ s).statusBar = .stopped) ∧
    stopExtension fl r₂ (stopExtension fl r₁ s) =
      logClientInfo (stopExtension fl r₁ s) "Extension already stopped" := by
  obtain ⟨a1, a2, a3⟩ := stopExtension_clears fl r₁ s
  obtain ⟨b1, b2, b3⟩ := stopExtension_count_teardown fl r₁ s
  exact ⟨a1, a2, a3, b1, b2, b3, fun h => stopExtension_status fl r₁ s h,
    stopExtension_noop fl r₂ _ a1 a3 a2⟩

/-- Claim C1 witness: the amended theorem applied on the Running state. -/
theorem stop_sequential_idempotent_witness :
    (stopExtension allOk "first" reachedRunning).client = none ∧
    (stopExtension allOk "first" reachedRunning).statusBar = .stopped ∧
    (stopExtension allOk "first" reachedRunning).events.countP isClientStopCall = 1 ∧
    stopExtension allOk "second" (stopExtension allOk "first" reachedRunning) =
      logClientInfo (stopExtension allOk "first" reachedRunning)
        "Extension already stopped" := by
  have h := stop_sequential_idempotent allOk "first" "second" reachedRunning
  refine ⟨h.1, h.2.2.2.2.2.2.1 (by decide), ?_, h.2.2.2.2.2.2.2⟩
  rw [h.2.2.2.1]
  decide

/-- Claim C2, counterexample: route a LiquidJava error on the Running state,
then complete a stop; the lifecycle is Stopped (all references cleared) but
`errorDiagnostic` still holds the routed error — `stopExtension` never
clears it. -/
theorem stop_leaves_active_diagnostic :
    stoppedWithDiag.client = none ∧ stoppedWithDiag.socket = none ∧
    stoppedWithDiag.serverProcess = none ∧
    stoppedWithDiag.errorDiagnostic = some (mkRefinementError "/A.java" ljErrDiag) := by
  decide

/-- Claim C2 (amended): the active diagnostic is governed solely by
diagnostics routing — after a round it is exactly the first LiquidJava
error of that round (if any) — and `stopExtension` leaves it unchanged, so
it can remain non-null after a stop completes. -/
theorem active_diagnostic_tracks_routing (fl : Flags) (r : String) (s : ExtState)
    (u : String) (l : List LJDiagnostic) (s' : ExtState) :
    (stopExtension fl r s).errorDiagnostic = s.errorDiagnostic ∧
    (handleDiagnostics u l s').errorDiagnostic =
      (l.find? isLJError).map (mkRefinementError u) :=
  ⟨stopExtension_errorDiagnostic fl r s, handleDiagnostics_errorDiagnostic u l s'⟩

/-- Claim C3 (confirmed): on a state with all three resources live, whatever
combination of teardown steps fails, every failure is logged, the following
teardown steps still run (their action events appear in the trace), every
resource reference ends cleared, and the embedding is a total function —
no error escapes `stopExtension`.  The kill step follows the spec model of
`killProcess` (utils.ts is not under src/): best-effort, logs its own
failure, never throws. -/
theorem teardown_errors_contained (fl : Flags) (r : String) (s : ExtState)
    (hc : s.client.isSome = true) (hs : s.socket.isSome = true)
    (hp : s.serverProcess.isSome = true) :
    (stopExtension fl r s).client = none ∧
    (stopExtension fl r s).socket = none ∧
    (stopExtension fl r s).serverProcess = none ∧
    Event.clientStopCall ∈ (stopExtension fl r s).events ∧
    Event.socketDestroyCall ∈ (stopExtension fl r s).events ∧
    Event.processKillCall ∈ (stopExtension fl r s).events ∧
    (fl.clientStopFails = true →
      Event.logClientError "Error stopping client: error" ∈ (stopExtension fl r s).events) ∧
    (fl.socketDestroyFails = true →
      Event.logClientError "Error closing socket: error" ∈ (stopExtension fl r s).events) ∧
    (fl.killFails = true →
      Event.logClientError "Error killing process: error" ∈ (stopExtension fl r s).events) := by
  obtain ⟨cl, sk, pr, ed, sb, ev⟩ := s
  cases cl with
  | none => simp at hc
  | some c =>
    cases sk with
    | none => simp at hs
    | some k =>
      cases pr with
      | none => simp at hp
      | some p =>
        obtain ⟨f1, f2, f3⟩ := fl
        cases f1 <;> cases f2 <;> cases f3 <;>
          simp [stopExtension, logClientInfo, logClientError, updateStatusBar,
            addEvent, killProcess, List.mem_append]

/-- Claim C3 witness: all three teardown steps fail on the Running state;
each failure is logged and teardown still completes. -/
theorem teardown_errors_contained_witness :
    (stopExtension ⟨true, true, true⟩ "x" reachedRunning).client = none ∧
    Event.clientStopCall ∈ (stopExtension ⟨true, true, true⟩ "x" reachedRunning).events ∧
    Event.logClientError "Error stopping client: error" ∈
      (stopExtension ⟨true, true, true⟩ "x" reachedRunning).events ∧
    Event.logClientError "Error closing socket: error" ∈
      (stopExtension ⟨true, true, true⟩ "x" reachedRunning).events ∧
    Event.logClientError "Error killing process: error" ∈
      (stopExtension ⟨true, true, true⟩ "x" reachedRunning).events := by
  have h := teardown_errors_contained ⟨true, true, true⟩ "x" reachedRunning
    (by decide) (by decide) (by decide)
  exact ⟨h.1, h.2.2.2.1, h.2.2.2.2.2.2.1 rfl, h.2.2.2.2.2.2.2.1 rfl,
    h.2.2.2.2.2.2.2.2 rfl⟩

/-- Claim C4, counterexample: the spawn-failure handler fired on the
post-spawn state emits no user-visible message, no status change, no
teardown action, and leaves the process reference untouched — it neither
surfaces the failure to the user nor drives a stop, refuting the claim. -/
theorem spawn_error_not_surfaced :
    spawnErrState.events.countP isUserMessage = 0 ∧
    spawnErrState.events.countP isStatusStopped = 0 ∧
    spawnErrState.events.countP isClientStopCall = 0 ∧
    spawnErrState.events.countP isSocketDestroyCall = 0 ∧
    spawnErrState.events.countP isProcessKillCall = 0 ∧
    spawnErrState.serverProcess = some 1 ∧
    spawnErrState.statusBar = .loading := by decide

/-- Claim C4 (amended): a spawn failure is only logged to the server logger
as "Failed to start: err"; the handler changes nothing else — no user
message is shown and no stop is driven by it (an eventual stop arises only
later, from the connection failure path). -/
theorem spawn_error_handler_only_logs (err : String) (s : ExtState) :
    onSpawnError err s =
      { s with events := s.events ++ [Event.logServerError ("Failed to start: " ++ err)] } :=
  rfl

/-- Claim C5, counterexample: in the exit scenario (process exits with code
1 on the Running state), a second `stop` call that overlaps the in-progress
session-ended stop is not a no-op: the `stopped` status event is emitted
twice and `client.stop()` is issued three times (once by the close handler,
once per overlapping `stopExtension` entry). -/
theorem process_exit_overlap_stop_not_noop :
    exitOverlapSys.st.events.countP isStatusStopped = 2 ∧
    exitOverlapSys.st.events.countP isClientStopCall = 3 := by decide

/-- Claim C5 (amended): when the process exit signal fires on a state with a
live client and process, the exit code is logged, the ensuing stop (the
session-ended trigger) sets status `stopped` and clears the process
reference with exactly one kill signal, and a second stop invocation after
that stop completes is a no-op; only a concurrently overlapping second call
breaks the no-op part (see the counterexample). -/
theorem process_exit_single_teardown (code : Int) (r₂ : String) (s : ExtState)
    (hc : s.client.isSome = true) (hp : s.serverProcess.isSome = true) :
    Event.logServerInfo ("Process exited with code " ++ toString code) ∈
      (stopExtension allOk "Extension stopped" (onProcessClose code s)).events ∧
    (stopExtension allOk "Extension stopped" (onProcessClose code s)).statusBar = .stopped ∧
    (stopExtension allOk "Extension stopped" (onProcessClose code s)).serverProcess = none ∧
    (stopExtension allOk "Extension stopped" (onProcessClose code s)).events.countP
        isProcessKillCall = s.events.countP isProcessKillCall + 1 ∧
    stopExtension allOk r₂ (stopExtension allOk "Extension stopped" (onProcessClose code s)) =
      logClientInfo (stopExtension allOk "Extension stopped" (onProcessClose code s))
        "Extension already stopped" := by
  obtain ⟨hcl, hsk, hpr, hmem, hcnt⟩ := onProcessClose_spec code s
  have hclears := stopExtension_clears allOk "Extension stopped" (onProcessClose code s)
  have hcount := stopExtension_count_teardown allOk "Extension stopped" (onProcessClose code s)
  refine ⟨stopExtension_events_mono _ _ _ _ hmem, ?_, hclears.2.2, ?_, ?_⟩
  · apply stopExtension_status
    intro hcontra
    rw [hcl] at hcontra
    rw [hcontra.1] at hc
    simp at hc
  · rw [hcount.2.2, hcnt, hpr, hp]
    simp
  · exact stopExtension_noop _ _ _ hclears.1 hclears.2.2 hclears.2.1

/-- Claim C5 witness: the exit-code-1 scenario on the Running state. -/
theorem process_exit_single_teardown_witness :
    Event.logServerInfo "Process exited with code 1" ∈
      (stopExtension allOk "Extension stopped" (onProcessClose 1 reachedRunning)).events ∧
    (stopExtension allOk "Extension stopped" (onProcessClose 1 reachedRunning)).statusBar =
      .stopped ∧
    stopExtension allOk "second"
        (stopExtension allOk "Extension stopped" (onProcessClose 1 reachedRunning)) =
      logClientInfo (stopExtension allOk "Extension stopped" (onProcessClose 1 reachedRunning))
        "Extension already stopped" := by
  have h := process_exit_single_teardown 1 "second" reachedRunning (by decide) (by decide)
  exact ⟨h.1, h.2.1, h.2.2.2.2⟩

/-- Claim C6, counterexample: with the jar present but no Java runtime
resolvable, activation emits zero user-visible warnings — the message shown
is an error message (`showErrorMessage`, extension.ts line 49) — refuting
"a user-visible warning emitted once" for that prerequisite. -/
theorem java_missing_shows_error_not_warning :
    (activate true none false 0 true initState).events.countP isUserWarning = 0 ∧
    (activate true none false 0 true initState).events.countP isUserError = 1 := by decide

/-- Claim C6 (amended): if a prerequisite is missing, activation aborts with
exactly one user-visible message — a warning when the jar is absent, an
error message when no Java runtime is found — no port is reserved, no
process is spawned, no connection is made, and the status ends `stopped`. -/
theorem prerequisite_missing_aborts (jar : Bool) (java : Option String) (dbg : Bool)
    (ap : Nat) (cOk : Bool) (s : ExtState) (h : jar = false ∨ java = none) :
    (activate jar java dbg ap cOk s).statusBar = .stopped ∧
    (activate jar java dbg ap cOk s).client = s.client ∧
    (activate jar java dbg ap cOk s).socket = s.socket ∧
    (activate jar java dbg ap cOk s).serverProcess = s.serverProcess ∧
    (activate jar java dbg ap cOk s).events.countP isPortReserve =
        s.events.countP isPortReserve ∧
    (activate jar java dbg ap cOk s).events.countP isSpawnProcess =
        s.events.countP isSpawnProcess ∧
    (activate jar java dbg ap cOk s).events.countP isUserMessage =
        s.events.countP isUserMessage + 1 ∧
    (jar = false →
      (activate jar java dbg ap cOk s).events.countP isUserWarning =
        s.events.countP isUserWarning + 1) ∧
    (jar = true →
      (activate jar java dbg ap cOk s).events.countP isUserError =
        s.events.countP isUserError + 1) := by
  cases jar
  · simp [activate, updateStatusBar, addEvent, logClientInfo, logClientError,
      List.countP_append, isPortReserve, isSpawnProcess, isUserMessage,
      isUserWarning, isUserError]
  · have hj : java = none := h.resolve_left (by simp)
    subst hj
    simp [activate, updateStatusBar, addEvent, logClientInfo, logClientError,
      List.countP_append, isPortReserve, isSpawnProcess, isUserMessage,
      isUserWarning, isUserError]

/-- Claim C6 witness: the Java-runtime-missing branch from the initial
state. -/
theorem prerequisite_missing_aborts_witness :
    (activate true none false 0 true initState).statusBar = .stopped ∧
    (activate true none false 0 true initState).serverProcess = none ∧
    (activate true none false 0 true initState).events.countP isUserMessage = 1 ∧
    (activate true none false 0 true initState).events.countP isUserError = 1 := by
  have h := prerequisite_missing_aborts true none false 0 true initState (Or.inr rfl)
  refine ⟨h.1, ?_, ?_, ?_⟩
  · rw [h.2.2.2.1]
    decide
  · rw [h.2.2.2.2.2.2.1]
    decide
  · rw [h.2.2.2.2.2.2.2.2 rfl]
    decide

/-- Claim C7 (confirmed): the diagnostic selected by a routed set is the
first one in original collection order whose severity is Error and whose
source tag is the engine's ("liquidjava"); it satisfies the selection
predicate (so no other-source or lower-severity diagnostic is ever
selected), and everything before it in the set refutes the predicate. -/
theorem router_selects_first_engine_error (uri : String) (s : ExtState)
    (diags : List LJDiagnostic) (d : LJDiagnostic)
    (h : diags.find? isLJError = some d) :
    (handleDiagnostics uri diags s).errorDiagnostic = some (mkRefinementError uri d) ∧
    isLJError d = true ∧
    ∃ l₁ l₂, diags = l₁ ++ d :: l₂ ∧ ∀ e ∈ l₁, isLJError e = false := by
  obtain ⟨hp, l₁, l₂, hl, hall⟩ := find?_eq_some_split isLJError diags d h
  refine ⟨?_, hp, l₁, l₂, hl, hall⟩
  rw [handleDiagnostics_errorDiagnostic, h]
  rfl

/-- Claim C7 witness: a set with an Error from another source first, then
two engine-tagged Errors — the first engine Error is selected. -/
theorem router_selects_first_engine_error_witness :
    (handleDiagnostics "/A.java" [otherSrcError, ljErrDiag, ljErrDiag2]
        reachedRunning).errorDiagnostic =
      some (mkRefinementError "/A.java" ljErrDiag) ∧
    isLJError ljErrDiag = true := by
  have h := router_selects_first_engine_error "/A.java" reachedRunning
    [otherSrcError, ljErrDiag, ljErrDiag2] ljErrDiag (by decide)
  exact ⟨h.1, h.2.1⟩

/-- Claim C8 (confirmed): routing a set with no engine-tagged Error
diagnostic (in particular the empty set) clears the active diagnostic,
pushes the explicit clear value to the webview, and sets status `passed` —
and nothing else is emitted. -/
theorem router_clears_on_no_engine_error (uri : String) (s : ExtState)
    (diags : List LJDiagnostic) (h : diags.find? isLJError = none) :
    (handleDiagnostics uri diags s).errorDiagnostic = none ∧
    (handleDiagnostics uri diags s).statusBar = .passed ∧
    (handleDiagnostics uri diags s).events =
      s.events ++ [Event.webviewMsg none, Event.statusUpdate .passed] := by
  simp [handleDiagnostics, h, updateStatusBar, addEvent]

/-- Claim C8 witness: the empty set and a set with only a foreign-source
Error and an engine warning. -/
theorem router_clears_on_no_engine_error_witness :
    (handleDiagnostics "/A.java" [] reachedRunning).errorDiagnostic = none ∧
    (handleDiagnostics "/A.java" [otherSrcError, ljWarnDiag]
        reachedRunning).errorDiagnostic = none ∧
    (handleDiagnostics "/A.java" [otherSrcError, ljWarnDiag] reachedRunning).statusBar =
      .passed := by
  have h1 := router_clears_on_no_engine_error "/A.java" reachedRunning [] rfl
  have h2 := router_clears_on_no_engine_error "/A.java" reachedRunning
    [otherSrcError, ljWarnDiag] (by decide)
  exact ⟨h1.1, h2.1, h2.2.1⟩

/-- Claim C9 (confirmed): with the debug override set, `runLanguageServer`
returns the fixed configured debug port, appends only the debug-mode log
line (so no port reservation and no spawn event occur), leaves the process
reference untouched, and the client's connection attempt targets exactly
that fixed port. -/
theorem debug_mode_uses_fixed_port (ap : Nat) (cOk : Bool) (s : ExtState) :
    (runLanguageServer true ap s).2 = DEBUG_PORT ∧
    (runLanguageServer true ap s).1.events =
      s.events ++
        [Event.logClientInfo ("DEBUG MODE: Using fixed port " ++ toString DEBUG_PORT)] ∧
    (runLanguageServer true ap s).1.serverProcess = s.serverProcess ∧
    Event.connectCall DEBUG_PORT ∈
      (runClient cOk (runLanguageServer true ap s).2 (runLanguageServer true ap s).1).events := by
  refine ⟨rfl, rfl, rfl, ?_⟩
  exact runClient_connect_mem cOk _ _

/-- Claim C10 (confirmed): any `RefinementError` stored by a diagnostics
round carries the fixed example constants in `expected`, `found` and
`translationTable` regardless of the input, while `message`, `range`,
`severity`, `file` and `kind` come from the routed diagnostic and
document. -/
theorem refinement_error_fixed_payload (uri : String) (d : LJDiagnostic)
    (diags : List LJDiagnostic) (s : ExtState) (e : RefinementError)
    (h : (handleDiagnostics uri diags s).errorDiagnostic = some e) :
    e.expected = EXAMPLE_EXPECTED ∧
    e.found = EXAMPLE_DERIVATION_NODE ∧
    e.translationTable = EXAMPLE_TRANSLATION_TABLE ∧
    (mkRefinementError uri d).expected = EXAMPLE_EXPECTED ∧
    (mkRefinementError uri d).found = EXAMPLE_DERIVATION_NODE ∧
    (mkRefinementError uri d).translationTable = EXAMPLE_TRANSLATION_TABLE ∧
    (mkRefinementError uri d).message = d.message ∧
    (mkRefinementError uri d).range = d.range ∧
    (mkRefinementError uri d).severity = d.severity ∧
    (mkRefinementError uri d).file = uri ∧
    (mkRefinementError uri d).kind = d.errorKind := by
  rw [handleDiagnostics_errorDiagnostic] at h
  cases hf : diags.find? isLJError with
  | none => rw [hf] at h; simp at h
  | some d' =>
      rw [hf] at h
      simp only [Option.map_some', Option.some_inj] at h
      subst h
      exact ⟨rfl, rfl, rfl, rfl, rfl, rfl, rfl, rfl, rfl, rfl, rfl⟩

/-- Claim C10 witness: a concrete routed engine error. -/
theorem refinement_error_fixed_payload_witness :
    (mkRefinementError "/A.java" ljErrDiag).expected = EXAMPLE_EXPECTED ∧
    (mkRefinementError "/A.java" ljErrDiag).found = EXAMPLE_DERIVATION_NODE ∧
    (mkRefinementError "/A.java" ljErrDiag).translationTable =
      EXAMPLE_TRANSLATION_TABLE := by
  have h := refinement_error_fixed_payload "/A.java" ljErrDiag [ljErrDiag] reachedRunning
    (mkRefinementError "/A.java" ljErrDiag) (by decide)
  exact ⟨h.1, h.2.1, h.2.2.1⟩

end LiquidJava
